import Mathlib

/-!
Verification of the system-information aggregation and presentation model of
the `examine` application, embedded from `src/app.rs`.

The embedding models:
 - the line parser (`str::lines`, `str::split_once`) used by the tool pages;
 - the per-page render logic of `AppModel::view`;
 - application initialization (`AppModel::init`), message handling
   (`AppModel::update`) and navigation (`AppModel::on_nav_select`);
 - the Distribution page row construction;
 - the I/O effects performed by `init` and `view`.

Fallible operations (Rust `unwrap` panics) are modelled with `Option`, where
`none` stands for a panic/abort of the surrounding computation.
-/

namespace Examine

/-- A label/value pair shown in the UI: one row of a settings list, as built
by `settings::item(label, widget::text::body(value))` in `src/app.rs`. -/
structure DisplayRow where
  label : String
  value : String
deriving DecidableEq, Repr, BEq

/-! ## Character-list string primitives

The Rust string operations used by `AppModel::view` — `str::lines`,
`str::split_once`, `str::starts_with`, `str::contains` — are embedded as
structurally recursive functions on `List Char`, wrapped for `String`. -/

/-- Split a character list at every newline character; mirrors the first
phase of Rust `str::lines` (before dropping a final empty segment). Always
returns at least one segment. -/
def splitNl : List Char → List (List Char)
  | [] => [[]]
  | c :: cs =>
    if c = '\n' then [] :: splitNl cs
    else
      match splitNl cs with
      | [] => [[c]]
      | l :: ls => (c :: l) :: ls

/-- Strip one trailing carriage return, as Rust `str::lines` does for
`\r\n` line endings. -/
def stripCR (l : List Char) : List Char :=
  if l.getLast? = some '\r' then l.dropLast else l

/-- Embedding of Rust `str::lines`: split at `\n`, drop a final empty
segment (a trailing line terminator does not produce an empty last line),
and strip a trailing `\r` from each line. Interior empty lines are kept. -/
def rustLines (s : String) : List String :=
  let ps := splitNl s.data
  let ps :=
    match ps.getLast? with
    | some [] => ps.dropLast
    | _ => ps
  ps.map fun l => String.mk (stripCR l)

/-- Split a character list at the first occurrence of the pattern `d`,
returning the parts before and after it (pattern removed); `none` when the
pattern does not occur. Mirrors Rust `str::split_once`. -/
def splitOnceAux (d : List Char) : List Char → Option (List Char × List Char)
  | [] => none
  | c :: cs =>
    if d.isPrefixOf (c :: cs) then some ([], (c :: cs).drop d.length)
    else
      match splitOnceAux d cs with
      | some (a, b) => some (c :: a, b)
      | none => none

/-- Embedding of Rust `str::split_once`: split at the first occurrence of
the delimiter, or `none` when the delimiter does not occur in `s`. -/
def splitOnce (d s : String) : Option (String × String) :=
  (splitOnceAux d.data s.data).map fun p => (String.mk p.1, String.mk p.2)

/-- Embedding of Rust `str::starts_with` (`s.starts_with(pat)`). -/
def strStartsWith (s pat : String) : Bool :=
  pat.data.isPrefixOf s.data

/-- Whether the pattern `d` occurs somewhere in the character list;
mirrors Rust `str::contains`. -/
def containsSub (d : List Char) : List Char → Bool
  | [] => false
  | c :: cs => d.isPrefixOf (c :: cs) || containsSub d cs

/-- Embedding of Rust `str::contains` for string patterns. -/
def strContains (s pat : String) : Bool :=
  containsSub pat.data s.data

/-- Number of (possibly overlapping) occurrences of the pattern `d` in a
character list; used to state "contains the delimiter exactly once". -/
def countSub (d : List Char) : List Char → Nat
  | [] => 0
  | c :: cs => (if d.isPrefixOf (c :: cs) then 1 else 0) + countSub d cs

/-- Number of occurrences of the pattern in a string. -/
def strCountSub (s pat : String) : Nat :=
  countSub pat.data s.data

/-! ## Line parser -/

/-- Map a fallible function over a list, aborting the whole computation on
the first failure. Models Rust `iter().map(|x| ...unwrap()...).collect()`
where the closure's `unwrap` panic aborts the whole collection. -/
def collectRows (f : α → Option β) : List α → Option (List β)
  | [] => some []
  | a :: as => (f a).bind fun b => (collectRows f as).map fun bs => b :: bs

/-- Parse one line of tool output: split at the first occurrence of the
delimiter (`none` models the `split_once(..).unwrap()` panic when the
delimiter is absent). With `swap = false` the row is
`(label := part before, value := part after)` — the descriptor-style pages
(`Page::Motherboard`, `Page::Processor`, `settings::item(prefix, suffix)`);
with `swap = true` the sides are exchanged — the device-listing pages
(`Page::PCIs`, `Page::USBs`, `settings::item(suffix, prefix)`). -/
def parseLine (d : String) (swap : Bool) (line : String) : Option DisplayRow :=
  (splitOnce d line).map fun p =>
    if swap then ⟨p.2, p.1⟩ else ⟨p.1, p.2⟩

/-- Parse a whole captured tool output into display rows, one row per line
produced by `str::lines`; any line in which the delimiter does not occur
panics (`none`) and no rows are produced at all. Embeds the
`lines().map(|line| ... split_once(..).unwrap() ...).collect()` expressions
of `AppModel::view`. -/
def parseLines (d : String) (swap : Bool) (s : String) : Option (List DisplayRow) :=
  collectRows (parseLine d swap) (rustLines s)

/-! ## Page rendering -/

/-- What a tool page renders: a single large error title (`widget::text::title1`)
or a list of parsed key/value rows. -/
inductive Rendered where
  | errorTitle (msg : String)
  | rows (items : List DisplayRow)
deriving DecidableEq, Repr

/-- Render one tool page from its stored field, embedding the
`Page::Motherboard` / `Page::Processor` / `Page::PCIs` / `Page::USBs` arms of
`AppModel::view`. `errText` is the localized `fl!("error-occurred")` string
(the localization files are outside the embedded sources, so it is a
parameter). A `none` field renders the plain error title; a stored string
that starts with `errText` is rendered verbatim as an error title; otherwise
the output is parsed into rows, and a parse failure (`unwrap` panic) aborts
the render (`none`). -/
def renderToolPage (errText : String) (d : String) (swap : Bool)
    (field : Option String) : Option Rendered :=
  match field with
  | none => some (.errorTitle errText)
  | some s =>
    if strStartsWith s errText then some (.errorTitle s)
    else
      match parseLines d swap s with
      | some items => some (.rows items)
      | none => none

/-! ## Application state, initialization, update, navigation -/

/-- The page to display in the application (`enum Page` in `src/app.rs`). -/
inductive Page where
  | Distribution
  | Motherboard
  | Processor
  | PCIs
  | USBs
deriving DecidableEq, Repr

/-- The context page to display in the context drawer. -/
inductive ContextPage where
  | About
deriving DecidableEq, Repr

/-- Modelled from the spec: the persisted application configuration is "a
versioned settings object" whose contents are out of scope (`src/config.rs`
is not among the embedded sources); it is modelled as an opaque payload. -/
structure Config where
  raw : String
deriving DecidableEq, Repr

/-- The messages of the application (`enum Message` in `src/app.rs`). -/
inductive Message where
  | LaunchUrl (url : String)
  | SubscriptionChannel
  | ToggleContextPage (page : ContextPage)
  | UpdateConfig (config : Config)

/-- The application model (`struct AppModel`): the navigation state, context
drawer state, configuration, and the four cached tool-output fields. -/
structure AppModel where
  activeNav : Nat
  contextPage : ContextPage
  showContext : Bool
  config : Config
  dmidecode : Option String
  lscpu : Option String
  lspci : Option String
  lsusb : Option String
deriving DecidableEq, Repr

/-- The pages inserted into the navigation model by `AppModel::init`, in
insertion order. -/
def navPages : List Page :=
  [.Distribution, .Motherboard, .Processor, .PCIs, .USBs]

/-- The `Page` data attached to a navigation entry (`nav.data::<Page>`);
`none` for an id with no page attached. -/
def navPage (i : Nat) : Option Page :=
  navPages.get? i

/-- Captured stdout bytes of a child process: either valid UTF-8 text or
not. -/
inductive Utf8Data where
  | valid (s : String)
  | invalid
deriving DecidableEq, Repr

/-- The result of one `std::process::Command::new(..).output()` call:
the process ran and its stdout was captured, or the spawn failed. -/
inductive CmdResult where
  | output (stdout : Utf8Data)
  | spawnErr (msg : String)
deriving DecidableEq, Repr

/-- The outcomes of the four tool invocations made by `AppModel::init`,
supplied by the environment. -/
structure Env where
  dmidecode : CmdResult
  lscpu : CmdResult
  lspci : CmdResult
  lsusb : CmdResult
deriving DecidableEq, Repr

/-- `String::from_utf8(output.stdout).unwrap()`: yields the decoded text,
or panics (`none`) when the bytes are not valid UTF-8. -/
def decodeUtf8 : Utf8Data → Option String
  | .valid s => some s
  | .invalid => none

/-- One tool capture in `AppModel::init`: on a successful spawn the stdout is
decoded with an unchecked `unwrap` (panic on invalid UTF-8, modelled `none`);
on a spawn error the localized placeholder
`fl!("error-occurred-with-msg", error = e)` — here `mkErr e`, with the
localization abstracted as a parameter — is substituted. Both non-panicking
branches store `some` text. -/
def captureTool (mkErr : String → String) : CmdResult → Option String
  | .output out => decodeUtf8 out
  | .spawnErr e => some (mkErr e)

/-- Embedding of `AppModel::init`: capture the four tool outputs (a UTF-8
decoding panic in any of them aborts initialization, `none`). Both the
Distribution and Motherboard nav entries call `.activate()`, so the last one
wins and the initially active entry is index 1 (Motherboard). -/
def initModel (mkErr : String → String) (cfg : Config) (env : Env) :
    Option AppModel :=
  match captureTool mkErr env.dmidecode, captureTool mkErr env.lscpu,
      captureTool mkErr env.lspci, captureTool mkErr env.lsusb with
  | some d, some c, some p, some u =>
    some { activeNav := 1, contextPage := .About, showContext := false,
           config := cfg, dmidecode := some d, lscpu := some c,
           lspci := some p, lsusb := some u }
  | _, _, _, _ => none

/-- Embedding of `AppModel::update`: message handling. No branch touches the
four tool-output fields. -/
def updateModel (st : AppModel) (m : Message) : AppModel :=
  match m with
  | .LaunchUrl _ => st
  | .SubscriptionChannel => st
  | .ToggleContextPage cp =>
    if st.contextPage = cp then { st with showContext := !st.showContext }
    else { st with contextPage := cp, showContext := true }
  | .UpdateConfig c => { st with config := c }

/-- Embedding of `AppModel::on_nav_select`: activate the selected entry and
update the window title; the tool-output fields are untouched. -/
def onNavSelect (st : AppModel) (i : Nat) : AppModel :=
  { st with activeNav := i }

/-- The four per-page render functions, reading the corresponding cached
field. Motherboard and Processor split on `':'`; PCI and USB split on
`": "` with label/value sides swapped. -/
def renderMotherboard (errText : String) (st : AppModel) : Option Rendered :=
  renderToolPage errText ":" false st.dmidecode

/-- Processor page render (`Page::Processor` arm of `AppModel::view`). -/
def renderProcessor (errText : String) (st : AppModel) : Option Rendered :=
  renderToolPage errText ":" false st.lscpu

/-- PCI devices page render (`Page::PCIs` arm of `AppModel::view`). -/
def renderPCIs (errText : String) (st : AppModel) : Option Rendered :=
  renderToolPage errText ": " true st.lspci

/-- USB devices page render (`Page::USBs` arm of `AppModel::view`). -/
def renderUSBs (errText : String) (st : AppModel) : Option Rendered :=
  renderToolPage errText ": " true st.lsusb

/-! ## I/O effects of initialization and of the view -/

/-- An observable I/O effect of the program: invoking an external tool,
reading a file, or checking that a path exists. -/
inductive Effect where
  | runTool (program : String) (args : List String)
  | readFile (path : String)
  | checkPath (path : String)
deriving DecidableEq, Repr, BEq

/-- The motherboard tool invocation of `AppModel::init`:
`std::process::Command::new("dmidecode -t baseboard")` passes the whole
string — program name and intended `-t baseboard` filter argument — as the
single program token, with no separate argument tokens. -/
def dmidecodeInvocation : Effect :=
  .runTool "dmidecode -t baseboard" []

/-- The external-tool invocations performed by `AppModel::init`, in program
order. These are the only tool invocations in the program. -/
def initInvocations : List Effect :=
  [dmidecodeInvocation, .runTool "lscpu" [], .runTool "lspci" [],
   .runTool "lsusb" []]

/-- The OS release file path read by the `Page::Distribution` arm of
`AppModel::view`: the host-provided path when running inside flatpak,
otherwise the standard path opened by `OsRelease::open()`. -/
def osReleasePath (isFlatpak : Bool) : String :=
  if isFlatpak then "/run/host/os-release" else "/etc/os-release"

/-- The I/O effects of one `AppModel::view` call with the given active page:
every call checks for the flatpak marker file (`/.flatpak-info`), and the
Distribution arm additionally reads the OS release file; the four tool pages
only read the cached fields and perform no further I/O. -/
def viewEffects (isFlatpak : Bool) (p : Option Page) : List Effect :=
  .checkPath "/.flatpak-info" ::
    match p with
    | some .Distribution => [.readFile (osReleasePath isFlatpak)]
    | _ => []

/-- Whether a list of effects invokes any external tool. -/
def invokesTool (es : List Effect) : Bool :=
  es.any fun e =>
    match e with
    | .runTool _ _ => true
    | _ => false

/-! ## OS release record and the Distribution page -/

/-- Modelled from the spec: the `OsReleaseRecord` exposed by the OS Release
Reader (the `etc_os_release` crate, outside the embedded sources) — "an
immutable snapshot of recognized metadata fields ... Each field is optional
except name and id". The accessors the view calls without unwrapping
(`pretty_name()`, `name()`, `id()`) are total; the rest are optional. The
URL accessors return a parse result, modelled as `some` exactly when the
view's `Ok(Some(..))` pattern matches. List-valued fields carry their
items. -/
structure OsRelease where
  pretty_name : String
  name : String
  id : String
  version : Option String
  version_id : Option String
  id_like : Option (List String)
  version_codename : Option String
  build_id : Option String
  image_id : Option String
  image_version : Option String
  vendor_name : Option String
  ansi_color : Option String
  logo : Option String
  cpe_name : Option String
  home_url : Option String
  support_url : Option String
  documentation_url : Option String
  bug_report_url : Option String
  privacy_policy_url : Option String
  support_end : Option String
  variant : Option String
  variant_id : Option String
  default_hostname : Option String
  architecture : Option String
  sysext_level : Option String
  sysext_scope : Option (List String)
  confext_level : Option String
  confext_scope : Option (List String)
  portable_prefixes : Option (List String)
deriving DecidableEq, Repr

/-- A row contributed by an optional field: present exactly when the field
is (an `if let Some(x) = ... { list = list.add(settings::item(..)) }`
branch). -/
def optRow (label : String) : Option String → List DisplayRow
  | some v => [⟨label, v⟩]
  | none => []

/-- A row contributed by an optional list-valued field, joined with
`", "` (`.join(", ")`). -/
def optJoinRow (label : String) : Option (List String) → List DisplayRow
  | some vs => [⟨label, String.intercalate ", " vs⟩]
  | none => []

/-- The rows of the Distribution page, in the exact order the
`Page::Distribution` arm of `AppModel::view` adds them. The row labels
stand for the localized `fl!(..)` keys (two fields use bare literal labels
in the source). `pretty-name`, `name` and `id` rows are added
unconditionally; `version-codename` is additionally skipped when blank;
`support_url` feeds both the `vendor-url` and the `support-url` rows. -/
def distributionRows (r : OsRelease) : List DisplayRow :=
  [⟨"pretty-name", r.pretty_name⟩, ⟨"name", r.name⟩]
  ++ optRow "version" r.version
  ++ optRow "version-id" r.version_id
  ++ [⟨"id", r.id⟩]
  ++ optJoinRow "id-like" r.id_like
  ++ (match r.version_codename with
      | some c => if c = "" then [] else [⟨"version-codename", c⟩]
      | none => [])
  ++ optRow "build-id" r.build_id
  ++ optRow "image-id" r.image_id
  ++ optRow "image-version" r.image_version
  ++ optRow "vendor-name" r.vendor_name
  ++ optRow "ansi-color" r.ansi_color
  ++ optRow "logo" r.logo
  ++ optRow "cpe-name" r.cpe_name
  ++ optRow "home-url" r.home_url
  ++ optRow "vendor-url" r.support_url
  ++ optRow "doc-url" r.documentation_url
  ++ optRow "support-url" r.support_url
  ++ optRow "bug-report-url" r.bug_report_url
  ++ optRow "privacy-policy-url" r.privacy_policy_url
  ++ optRow "support-end" r.support_end
  ++ optRow "variant" r.variant
  ++ optRow "variant-id" r.variant_id
  ++ optRow "default-hostname" r.default_hostname
  ++ optRow "arch" r.architecture
  ++ optRow "SYSEXT_LEVEL" r.sysext_level
  ++ optJoinRow "SYSEXT_SCOPE" r.sysext_scope
  ++ optRow "CONFEXT_LEVEL" r.confext_level
  ++ optJoinRow "CONFEXT_SCOPE" r.confext_scope
  ++ optJoinRow "portable-prefixes" r.portable_prefixes

/-- Modelled from the spec: the record the OS Release Reader produces for a
metadata file containing exactly `ID=fedora`, `NAME=Fedora Linux` and
`VERSION_ID=39`. All optional fields are absent; the total `pretty_name`
accessor falls back to the os-release default `"Linux"` for the missing
`PRETTY_NAME` field. -/
def fedoraRelease : OsRelease where
  pretty_name := "Linux"
  name := "Fedora Linux"
  id := "fedora"
  version := none
  version_id := some "39"
  id_like := none
  version_codename := none
  build_id := none
  image_id := none
  image_version := none
  vendor_name := none
  ansi_color := none
  logo := none
  cpe_name := none
  home_url := none
  support_url := none
  documentation_url := none
  bug_report_url := none
  privacy_policy_url := none
  support_end := none
  variant := none
  variant_id := none
  default_hostname := none
  architecture := none
  sysext_level := none
  sysext_scope := none
  confext_level := none
  confext_scope := none
  portable_prefixes := none

/-- All optional OS-release fields absent (only the mandatory/defaulted
`pretty_name`, `name`, `id` remain). -/
def allOptionalAbsent (r : OsRelease) : Prop :=
  r.version = none ∧ r.version_id = none ∧ r.id_like = none ∧
  r.version_codename = none ∧ r.build_id = none ∧ r.image_id = none ∧
  r.image_version = none ∧ r.vendor_name = none ∧ r.ansi_color = none ∧
  r.logo = none ∧ r.cpe_name = none ∧ r.home_url = none ∧
  r.support_url = none ∧ r.documentation_url = none ∧
  r.bug_report_url = none ∧ r.privacy_policy_url = none ∧
  r.support_end = none ∧ r.variant = none ∧ r.variant_id = none ∧
  r.default_hostname = none ∧ r.architecture = none ∧
  r.sysext_level = none ∧ r.sysext_scope = none ∧
  r.confext_level = none ∧ r.confext_scope = none ∧
  r.portable_prefixes = none

/-- A record with every optional field absent and arbitrary mandatory
fields; a concrete instance of `allOptionalAbsent`. -/
def bareRelease : OsRelease where
  pretty_name := "Linux"
  name := "N"
  id := "i"
  version := none
  version_id := none
  id_like := none
  version_codename := none
  build_id := none
  image_id := none
  image_version := none
  vendor_name := none
  ansi_color := none
  logo := none
  cpe_name := none
  home_url := none
  support_url := none
  documentation_url := none
  bug_report_url := none
  privacy_policy_url := none
  support_end := none
  variant := none
  variant_id := none
  default_hostname := none
  architecture := none
  sysext_level := none
  sysext_scope := none
  confext_level := none
  confext_scope := none
  portable_prefixes := none

/-! ## Helper lemmas -/

/-- A successful `collectRows` yields one output element per input
element. -/
theorem collectRows_length {f : α → Option β} : ∀ {l : List α} {ys : List β},
    collectRows f l = some ys → ys.length = l.length := by
  intro l
  induction l with
  | nil => intro ys h; simp [collectRows] at h; simp [← h]
  | cons a as ih =>
    intro ys h
    simp only [collectRows, Option.bind_eq_some, Option.map_eq_some'] at h
    rcases h with ⟨b, hb, bs, hbs, hys⟩
    rw [← hys]
    simp [ih hbs]

/-- `collectRows` aborts whenever any element of the list fails. -/
theorem collectRows_none_of_mem {f : α → Option β} : ∀ {l : List α} {x : α},
    x ∈ l → f x = none → collectRows f l = none := by
  intro l
  induction l with
  | nil => intro x hx; cases hx
  | cons a as ih =>
    intro x hx hfx
    rcases List.mem_cons.mp hx with rfl | hmem
    · simp [collectRows, hfx]
    · cases hfa : f a with
      | none => simp [collectRows, hfa]
      | some b => simp [collectRows, hfa, ih hmem hfx]

/-- A successful `splitOnceAux` is lossless: the two parts joined with the
delimiter reconstruct the input exactly. -/
theorem splitOnceAux_append {d : List Char} : ∀ {l a b : List Char},
    splitOnceAux d l = some (a, b) → a ++ d ++ b = l := by
  intro l
  induction l with
  | nil => intro a b h; simp [splitOnceAux] at h
  | cons c cs ih =>
    intro a b h
    simp only [splitOnceAux] at h
    by_cases hp : d.isPrefixOf (c :: cs)
    · rw [if_pos hp] at h
      cases h
      have hpre : d <+: (c :: cs) := (List.isPrefixOf_iff_prefix).mp hp
      rcases hpre with ⟨t, ht⟩
      simp [← ht, List.drop_left]
    · rw [if_neg hp] at h
      cases hrec : splitOnceAux d cs with
      | none => rw [hrec] at h; exact absurd h (by simp)
      | some p =>
        rw [hrec] at h
        cases p with
        | mk a' b' =>
          cases h
          simp [ih hrec]

/-- String concatenation acts componentwise on the underlying data. -/
theorem string_data_append (a b : String) : (a ++ b).data = a.data ++ b.data :=
  rfl

/-- A successful `splitOnce` is lossless at the string level. -/
theorem splitOnce_append {d s a b : String}
    (h : splitOnce d s = some (a, b)) : a ++ d ++ b = s := by
  simp only [splitOnce, Option.map_eq_some'] at h
  rcases h with ⟨⟨x, y⟩, hx, hy⟩
  have hl := splitOnceAux_append hx
  injection hy with h1 h2
  subst h1
  subst h2
  apply String.ext
  simpa [string_data_append] using hl

/-- When the pattern does not occur, `splitOnceAux` fails. -/
theorem containsSub_false_aux {d : List Char} : ∀ {l : List Char},
    containsSub d l = false → splitOnceAux d l = none := by
  intro l
  induction l with
  | nil => intro _; rfl
  | cons c cs ih =>
    intro h
    simp only [containsSub, Bool.or_eq_false_iff] at h
    simp only [splitOnceAux, ih h.2]
    simp [h.1]

/-- When the delimiter does not occur in the line, `splitOnce` fails. -/
theorem strContains_false_splitOnce {d s : String}
    (h : strContains s d = false) : splitOnce d s = none := by
  simp [splitOnce, containsSub_false_aux (by simpa [strContains] using h)]

/-- Filtering out the empty string from a list that does not contain it
changes nothing. -/
theorem filter_nonempty_of_not_contains {l : List String}
    (h : l.contains "" = false) :
    l.filter (fun x => !(x == "")) = l := by
  rw [List.filter_eq_self]
  intro a ha
  simp only [Bool.not_eq_true']
  rw [beq_eq_false_iff_ne]
  rintro rfl
  have : l.contains "" = true := List.elem_iff.mpr ha
  rw [this] at h
  cases h

/-! ## Claim C1 -/

/-- Claim C1, counterexample: the claim that switching pages performs no
I/O because all displayed data was pre-fetched at startup fails for the
Distribution page — rendering it reads the OS release file, which startup
initialization never reads (the tool invocations are the only startup
effects). -/
theorem page_switch_distribution_reads_file :
    ((viewEffects false (some Page.Distribution)).contains
      (Effect.readFile "/etc/os-release") = true) ∧
    (initInvocations.contains (Effect.readFile "/etc/os-release") = false) := by
  decide

/-- Claim C1 as amended: switching the active page never re-invokes any
external diagnostic tool — no `view` call for any page (and any flatpak
state) produces a `runTool` effect — and `on_nav_select` leaves all four
cached tool-output fields untouched; however, the Distribution page is not
I/O-free (see the counterexample). -/
theorem page_switch_never_invokes_tools :
    (∀ (fp : Bool) (p : Option Page), invokesTool (viewEffects fp p) = false) ∧
    (∀ (st : AppModel) (i : Nat),
      (onNavSelect st i).dmidecode = st.dmidecode ∧
      (onNavSelect st i).lscpu = st.lscpu ∧
      (onNavSelect st i).lspci = st.lspci ∧
      (onNavSelect st i).lsusb = st.lsusb) := by
  constructor
  · intro fp p
    cases p with
    | none => rfl
    | some pg => cases pg <;> cases fp <;> rfl
  · intro st i
    exact ⟨rfl, rfl, rfl, rfl⟩

/-! ## Claim C2 -/

/-- Claim C2, counterexample: for the captured output `"a:1\n\nb:2"` (two
non-empty lines and one empty line), the claim promises two rows with the
empty line contributing none; the code instead panics — the render aborts
and produces no rows at all, because the empty line lacks the delimiter. -/
theorem rows_per_nonempty_line_cex :
    renderToolPage "An error occurred" ":" false (some "a:1\n\nb:2") = none ∧
    ((rustLines "a:1\n\nb:2").filter (fun l => !(l == ""))).length = 2 := by
  decide

/-- Claim C2 as amended: whenever rendering a tool page succeeds in
producing rows, there is exactly one `DisplayRow` per line of the output;
this can only happen when no line is empty (an empty line lacks the
delimiter and aborts the whole render rather than contributing no row), and
then the row count also equals the number of non-empty lines. -/
theorem rows_per_line (err d : String) (sw : Bool) (s : String)
    (items : List DisplayRow)
    (h : renderToolPage err d sw (some s) = some (.rows items)) :
    items.length = (rustLines s).length ∧
    (rustLines s).contains "" = false ∧
    items.length = ((rustLines s).filter (fun l => !(l == ""))).length := by
  by_cases hs : strStartsWith s err = true
  · simp [renderToolPage, hs] at h
  · have hs' : strStartsWith s err = false := by simpa using hs
    simp only [renderToolPage, hs', Bool.false_eq_true, if_false] at h
    cases hp : parseLines d sw s with
    | none => rw [hp] at h; simp at h
    | some items2 =>
      rw [hp] at h
      simp only [Option.some.injEq, Rendered.rows.injEq] at h
      have hlen : items.length = (rustLines s).length := by
        rw [← h]
        exact collectRows_length hp
      have hnoempty : (rustLines s).contains "" = false := by
        by_contra hcon
        have hmem : "" ∈ rustLines s := by
          have := Bool.of_not_eq_false hcon
          exact List.elem_iff.mp this
        have : parseLines d sw s = none :=
          collectRows_none_of_mem hmem (by simp [parseLine, splitOnce, splitOnceAux])
        rw [this] at hp
        cases hp
      refine ⟨hlen, hnoempty, ?_⟩
      rw [filter_nonempty_of_not_contains hnoempty, hlen]

/-- Claim C2 witness: the amended theorem applied to the concrete CPU-style
output `"a:1\nb:2"`, which renders to exactly two rows. -/
theorem rows_per_line_witness :
    [DisplayRow.mk "a" "1", DisplayRow.mk "b" "2"].length
      = (rustLines "a:1\nb:2").length ∧
    (rustLines "a:1\nb:2").contains "" = false ∧
    [DisplayRow.mk "a" "1", DisplayRow.mk "b" "2"].length
      = ((rustLines "a:1\nb:2").filter (fun l => !(l == ""))).length :=
  rows_per_line "E" ":" false "a:1\nb:2" [⟨"a", "1"⟩, ⟨"b", "2"⟩] (by decide)

/-! ## Claim C3 -/

/-- Claim C3: for a captured tool output containing a line in which the
delimiter does not occur, the parse fails as a whole — `parseLines` yields
no rows, and the page render aborts (models the `split_once(..).unwrap()`
panic) rather than producing a partial sequence of rows. -/
theorem malformed_line_aborts_parse (d : String) (sw : Bool) (s l err : String)
    (hl : l ∈ rustLines s) (hno : strContains l d = false)
    (hsw : strStartsWith s err = false) :
    parseLines d sw s = none ∧ renderToolPage err d sw (some s) = none := by
  have hline : parseLine d sw l = none := by
    simp [parseLine, strContains_false_splitOnce hno]
  have hparse : parseLines d sw s = none := collectRows_none_of_mem hl hline
  refine ⟨hparse, ?_⟩
  simp [renderToolPage, hsw, hparse]

/-- Claim C3 witness: the single-line output `"Architecture x86_64"` has no
colon, so the Processor-style parse and render abort. -/
theorem malformed_line_aborts_parse_witness :
    parseLines ":" false "Architecture x86_64" = none ∧
    renderToolPage "E" ":" false (some "Architecture x86_64") = none :=
  malformed_line_aborts_parse ":" false "Architecture x86_64"
    "Architecture x86_64" "E" (by decide) (by decide) (by decide)

/-! ## Claim C4 -/

/-- Claim C4, counterexample: on the line
`00:1f.3 Audio device: Intel Corporation` the first `": "` occurs after
`Audio device` (the `": "` inside `00:1f.3` is absent since `:` is followed
by `1`, not a space — but the colon of `device:` is followed by a space), so
the produced row is (label `"Intel Corporation"`, value
`"00:1f.3 Audio device"`), not the (label
`"Audio device: Intel Corporation"`, value `"00:1f.3"`) the claim asserts. -/
theorem device_listing_audio_cex :
    (parseLine ": " true "00:1f.3 Audio device: Intel Corporation"
      == some (DisplayRow.mk "Audio device: Intel Corporation" "00:1f.3")) = false ∧
    parseLine ": " true "00:1f.3 Audio device: Intel Corporation"
      = some ⟨"Intel Corporation", "00:1f.3 Audio device"⟩ := by
  decide

/-- Claim C4 as amended: on device-listing pages a line is split at the
first occurrence of `": "` with label the text after it and value the text
before it; for the line `00:1f.3 Audio device: Intel Corporation` the row
is (label `"Intel Corporation"`, value `"00:1f.3 Audio device"`). -/
theorem device_listing_rows_swapped :
    (∀ s a b, splitOnce ": " s = some (a, b) →
      parseLine ": " true s = some ⟨b, a⟩) ∧
    parseLine ": " true "00:1f.3 Audio device: Intel Corporation"
      = some ⟨"Intel Corporation", "00:1f.3 Audio device"⟩ := by
  constructor
  · intro s a b h
    simp [parseLine, h]
  · decide

/-- Claim C4 witness: the amended theorem applied to a concrete
device-listing line. -/
theorem device_listing_rows_swapped_witness :
    parseLine ": " true "01:00.0 VGA: NVIDIA" = some ⟨"NVIDIA", "01:00.0 VGA"⟩ :=
  device_listing_rows_swapped.1 "01:00.0 VGA: NVIDIA" "01:00.0 VGA" "NVIDIA"
    (by decide)

/-! ## Claim C5 -/

/-- Claim C5, counterexample: when a tool process spawns but its captured
stdout is not valid UTF-8 text, the caller does not substitute an error
placeholder — `String::from_utf8(..).unwrap()` panics and initialization
aborts (modelled as `none`), contradicting the claim that every capture
failure is replaced by a placeholder without crashing. -/
theorem invalid_utf8_aborts_init :
    initModel (fun e => e) ⟨""⟩
      ⟨.output (.valid "ok"), .output .invalid,
       .output (.valid "x"), .output (.valid "y")⟩ = none := by
  decide

/-- Claim C5 as amended: when the CPU tool fails to spawn, the localized
placeholder is stored in the `lscpu` field, the other three fields keep
their captured outputs unchanged, and (whenever the placeholder starts
with the localized error text, which the rendering design assumes) the
Processor page renders a single error title; but when a tool's captured
stdout is not valid text, initialization panics instead of substituting a
placeholder. -/
theorem spawn_failure_vs_invalid_utf8 :
    (∀ (mkErr : String → String) (cfg : Config) (e d p u : String)
        (st : AppModel),
      initModel mkErr cfg
        ⟨.output (.valid d), .spawnErr e, .output (.valid p),
         .output (.valid u)⟩ = some st →
      st.lscpu = some (mkErr e) ∧ st.dmidecode = some d ∧
      st.lspci = some p ∧ st.lsusb = some u ∧
      (∀ err, strStartsWith (mkErr e) err = true →
        renderProcessor err st = some (.errorTitle (mkErr e)))) ∧
    (∀ (mkErr : String → String) (cfg : Config) (env : Env),
      env.lscpu = .output .invalid → initModel mkErr cfg env = none) := by
  constructor
  · intro mkErr cfg e d p u st h
    simp only [initModel, captureTool, decodeUtf8, Option.some.injEq] at h
    subst h
    refine ⟨rfl, rfl, rfl, rfl, ?_⟩
    intro err herr
    simp [renderProcessor, renderToolPage, herr]
  · intro mkErr cfg env h
    cases hd : captureTool mkErr env.dmidecode with
    | none => simp [initModel, hd]
    | some x => simp [initModel, hd, h, captureTool, decodeUtf8]

/-- Claim C5 witness: applying the amended theorem at a concrete
spawn-failure environment, the Processor page renders the single error
title carrying the placeholder. -/
theorem spawn_failure_vs_invalid_utf8_witness :
    renderProcessor "E: "
      { activeNav := 1, contextPage := .About, showContext := false,
        config := ⟨""⟩, dmidecode := some "M", lscpu := some "E: boom",
        lspci := some "P", lsusb := some "U" }
      = some (.errorTitle "E: boom") :=
  ((spawn_failure_vs_invalid_utf8.1 (fun e => String.append "E: " e) ⟨""⟩
    "boom" "M" "P" "U"
    { activeNav := 1, contextPage := .About, showContext := false,
      config := ⟨""⟩, dmidecode := some "M", lscpu := some "E: boom",
      lspci := some "P", lsusb := some "U" } (by decide)).2.2.2.2) "E: "
    (by decide)

/-! ## Claim C6 -/

/-- Claim C6: the motherboard tool is invoked with the whole string
`"dmidecode -t baseboard"` — program name together with the intended
`-t baseboard` filter — as the single program token (it contains a space)
and with an empty argument list, so the filter is never passed as a
separate token; whatever stdout the launcher returns for that invocation is
stored as the Motherboard page's data. -/
theorem dmidecode_single_token :
    dmidecodeInvocation = .runTool "dmidecode -t baseboard" [] ∧
    strContains "dmidecode -t baseboard" " " = true ∧
    (∀ prog args, dmidecodeInvocation = .runTool prog args → args = []) ∧
    (∀ (mkErr : String → String) (cfg : Config) (env : Env) (st : AppModel)
        (s : String),
      env.dmidecode = .output (.valid s) →
      initModel mkErr cfg env = some st → st.dmidecode = some s) := by
  refine ⟨rfl, by decide, ?_, ?_⟩
  · intro prog args h
    cases h
    rfl
  · intro mkErr cfg env st s hd h
    have hd2 : captureTool mkErr env.dmidecode = some s := by
      rw [hd]
      rfl
    rw [initModel, hd2] at h
    rcases hc : captureTool mkErr env.lscpu with _ | c <;> rw [hc] at h <;>
      rcases hp2 : captureTool mkErr env.lspci with _ | p <;> rw [hp2] at h <;>
      rcases hu : captureTool mkErr env.lsusb with _ | u <;> rw [hu] at h <;>
      first
        | exact Option.noConfusion h
        | (cases h; rfl)

/-- Claim C6 witness: the last conjunct applied to a concrete environment
in which the single-token invocation succeeded. -/
theorem dmidecode_single_token_witness :
    (Option.some "Base Board Information" : Option String)
      = some "Base Board Information" :=
  dmidecode_single_token.2.2.2 (fun e => e) ⟨""⟩
    ⟨.output (.valid "Base Board Information"), .output (.valid "b"),
     .output (.valid "c"), .output (.valid "d")⟩
    { activeNav := 1, contextPage := .About, showContext := false,
      config := ⟨""⟩, dmidecode := some "Base Board Information",
      lscpu := some "b", lspci := some "c", lsusb := some "d" }
    "Base Board Information" rfl (by decide)

/-! ## Claim C7 -/

/-- Claim C7, counterexample: on a device-listing page, the line `"x: y"`
contains the delimiter `": "` exactly once and parses to (label `"y"`,
value `"x"`), but concatenating label + delimiter + value gives `"y: x"`,
which does not reconstruct the original line even modulo surrounding
whitespace — on the swapped pages the reconstruction is value + delimiter
+ label. -/
theorem parse_roundtrip_cex :
    parseLine ": " true "x: y" = some ⟨"y", "x"⟩ ∧
    strCountSub "x: y" ": " = 1 ∧
    (("y" ++ ": " ++ "x" : String) == "x: y") = false := by
  decide

/-- Claim C7 as amended: every successful line parse is lossless — the two
parts joined with the delimiter in source order reconstruct the original
line exactly: label + delimiter + value on the descriptor-style pages, and
value + delimiter + label on the swapped device-listing pages. -/
theorem parse_lossless (d s : String) (row : DisplayRow) :
    (parseLine d false s = some row → row.label ++ d ++ row.value = s) ∧
    (parseLine d true s = some row → row.value ++ d ++ row.label = s) := by
  constructor <;> intro h <;>
    · simp only [parseLine, Option.map_eq_some'] at h
      rcases h with ⟨⟨a, b⟩, hab, hrow⟩
      simp at hrow
      rw [← hrow]
      exact splitOnce_append hab

/-- Claim C7 witness: losslessness at the concrete Processor-style line
`"Architecture: x86_64"`. -/
theorem parse_lossless_witness :
    ("Architecture" ++ ":" ++ " x86_64" : String) = "Architecture: x86_64" :=
  (parse_lossless ":" "Architecture: x86_64" ⟨"Architecture", " x86_64"⟩).1
    (by decide)

/-! ## Claim C8 -/

/-- Claim C8, counterexample: for the metadata record of a file containing
exactly `ID=fedora`, `NAME=Fedora Linux`, `VERSION_ID=39`, the Distribution
page does not show the three rows (id, name, version-id) the claim asserts
— it shows four rows, because the pretty-name row is rendered
unconditionally (with the crate's default for the absent `PRETTY_NAME`) and
the id row comes after version-id. -/
theorem distribution_scenario_cex :
    (distributionRows fedoraRelease ==
      [DisplayRow.mk "id" "fedora", DisplayRow.mk "name" "Fedora Linux",
       DisplayRow.mk "version-id" "39"]) = false ∧
    (distributionRows fedoraRelease).length = 4 := by
  decide

/-- Claim C8 as amended: for that metadata file the Distribution page shows
exactly four rows — (pretty-name, "Linux"), (name, "Fedora Linux"),
(version-id, "39"), (id, "fedora") — in the code's fixed field order; and
for every optional OS-release field absent from the source file no
corresponding row appears: a record with all optional fields absent
renders exactly the three unconditional rows. -/
theorem distribution_scenario_amended :
    distributionRows fedoraRelease =
      [⟨"pretty-name", "Linux"⟩, ⟨"name", "Fedora Linux"⟩,
       ⟨"version-id", "39"⟩, ⟨"id", "fedora"⟩] ∧
    (∀ r, allOptionalAbsent r →
      distributionRows r =
        [⟨"pretty-name", r.pretty_name⟩, ⟨"name", r.name⟩,
         ⟨"id", r.id⟩]) := by
  constructor
  · decide
  · intro r h
    obtain ⟨h1, h2, h3, h4, h5, h6, h7, h8, h9, h10, h11, h12, h13, h14,
      h15, h16, h17, h18, h19, h20, h21, h22, h23, h24, h25, h26⟩ := h
    simp [distributionRows, optRow, optJoinRow, h1, h2, h3, h4, h5, h6, h7,
      h8, h9, h10, h11, h12, h13, h14, h15, h16, h17, h18, h19, h20, h21,
      h22, h23, h24, h25, h26]

/-- Claim C8 witness: the amended theorem applied to the concrete record
with every optional field absent. -/
theorem distribution_scenario_amended_witness :
    distributionRows bareRelease =
      [⟨"pretty-name", bareRelease.pretty_name⟩, ⟨"name", bareRelease.name⟩,
       ⟨"id", bareRelease.id⟩] :=
  distribution_scenario_amended.2 bareRelease
    (by simp [allOptionalAbsent, bareRelease])

/-! ## Claim C9 -/

/-- Claim C9: a stored (non-`None`) tool output renders as a single error
title exactly when the stored string starts with the localized
"error-occurred" text — so a genuinely captured output whose first
characters coincide with that prefix is rendered verbatim as an error
instead of being parsed into rows. -/
theorem error_title_iff_error_marker (err d : String) (sw : Bool) (s : String) :
    (strStartsWith s err = true →
      renderToolPage err d sw (some s) = some (.errorTitle s)) ∧
    (∀ r, renderToolPage err d sw (some s) = some (.errorTitle r) →
      strStartsWith s err = true ∧ r = s) := by
  constructor
  · intro h
    simp [renderToolPage, h]
  · intro r h
    by_cases hs : strStartsWith s err = true
    · simp [renderToolPage, hs] at h
      exact ⟨hs, h.symm⟩
    · have hs' : strStartsWith s err = false := by simpa using hs
      simp only [renderToolPage, hs', Bool.false_eq_true, if_false] at h
      cases hp : parseLines d sw s with
      | some items => rw [hp] at h; simp at h
      | none => rw [hp] at h; simp at h

/-- Claim C9 witness: a genuinely captured output that happens to begin
with the localized error text is rendered as an error title. -/
theorem error_title_iff_error_marker_witness :
    renderToolPage "An error occurred" ":" false (some "An error occurred: boom")
      = some (.errorTitle "An error occurred: boom") :=
  (error_title_iff_error_marker "An error occurred" ":" false
    "An error occurred: boom").1 (by decide)

/-! ## Claim C10 -/

/-- Claim C10: if initialization returns (does not panic), all four
tool-output fields are `Some`; every message update and every navigation
selection leaves the four fields unchanged, so the invariant is preserved
for the whole run and the view's `None` fallback branches are unreachable
after startup. -/
theorem tool_fields_always_present :
    (∀ (mkErr : String → String) (cfg : Config) (env : Env) (st : AppModel),
      initModel mkErr cfg env = some st →
      st.dmidecode.isSome = true ∧ st.lscpu.isSome = true ∧
      st.lspci.isSome = true ∧ st.lsusb.isSome = true) ∧
    (∀ (st : AppModel) (m : Message),
      (updateModel st m).dmidecode = st.dmidecode ∧
      (updateModel st m).lscpu = st.lscpu ∧
      (updateModel st m).lspci = st.lspci ∧
      (updateModel st m).lsusb = st.lsusb) ∧
    (∀ (st : AppModel) (i : Nat),
      (onNavSelect st i).dmidecode = st.dmidecode ∧
      (onNavSelect st i).lscpu = st.lscpu ∧
      (onNavSelect st i).lspci = st.lspci ∧
      (onNavSelect st i).lsusb = st.lsusb) := by
  refine ⟨?_, ?_, ?_⟩
  · intro mkErr cfg env st h
    rw [initModel] at h
    split at h
    · cases h
      exact ⟨rfl, rfl, rfl, rfl⟩
    · cases h
  · intro st m
    cases m with
    | LaunchUrl u => exact ⟨rfl, rfl, rfl, rfl⟩
    | SubscriptionChannel => exact ⟨rfl, rfl, rfl, rfl⟩
    | ToggleContextPage cp =>
      simp only [updateModel]
      split <;> exact ⟨rfl, rfl, rfl, rfl⟩
    | UpdateConfig c => exact ⟨rfl, rfl, rfl, rfl⟩
  · intro st i
    exact ⟨rfl, rfl, rfl, rfl⟩

/-- Claim C10 witness: the invariant at a concrete successful
initialization. -/
theorem tool_fields_always_present_witness :
    (Option.some "a").isSome = true ∧ (Option.some "b").isSome = true ∧
    (Option.some "c").isSome = true ∧ (Option.some "d").isSome = true :=
  tool_fields_always_present.1 (fun e => e) ⟨""⟩
    ⟨.output (.valid "a"), .output (.valid "b"), .output (.valid "c"),
     .output (.valid "d")⟩
    { activeNav := 1, contextPage := .About, showContext := false,
      config := ⟨""⟩, dmidecode := some "a", lscpu := some "b",
      lspci := some "c", lsusb := some "d" } (by decide)

end Examine
